import Mathlib

/-!
Shallow embedding of `src/db/src/trie/recorder.rs` (trie query recorder)
from the cita-common repository, together with theorems settling the
specified properties of `Recorder::new`, `Recorder::with_depth`,
`Recorder::record` and `Recorder::drain`.

Digests (`H256`) are opaque values to the recorder; we model them as
natural numbers. Byte strings (`Bytes`) are lists of naturals. Depths are
`u32` in the source; since the recorder only compares depths with `>=`
and never does arithmetic on them, `Nat` is a faithful model.
-/

/-- Model of the 256-bit digest type `H256`: an opaque value the recorder
only stores and compares. -/
abbrev H256 := Nat

/-- Model of `util::Bytes` (a byte vector). -/
abbrev Bytes := List Nat

/-- `Record`: a record of a visited node (depth, raw data, hash), as in
the source structure. -/
structure Record where
  depth : Nat
  data : Bytes
  hash : H256
  deriving DecidableEq, Repr

/-- `Recorder`: an ordered buffer of records plus a fixed minimum depth,
as in the source structure. -/
structure Recorder where
  nodes : List Record
  min_depth : Nat
  deriving DecidableEq, Repr

/-- `Recorder::with_depth(depth)`: empty buffer, `min_depth = depth`. -/
def Recorder.with_depth (depth : Nat) : Recorder :=
  { nodes := [], min_depth := depth }

/-- `Recorder::new()`: defined in the source as `with_depth(0)`. -/
def Recorder.new : Recorder :=
  Recorder.with_depth 0

/-- `impl Default for Recorder`: `default()` calls `Recorder::new()`. -/
def Recorder.default : Recorder :=
  Recorder.new

/-- `Recorder::record(hash, data, depth)`: push `Record { depth, data,
hash }` when `depth >= min_depth`, otherwise do nothing. The
`debug_assert_eq!(data.crypt_hash(), *hash)` in the source is compiled
out of production builds and has no effect on the state, so it does not
appear here. -/
def Recorder.record (r : Recorder) (hash : H256) (data : Bytes) (depth : Nat) : Recorder :=
  if r.min_depth ≤ depth then
    { r with nodes := r.nodes ++ [{ depth := depth, data := data, hash := hash }] }
  else
    r

/-- `Recorder::drain()`: `mem::replace(&mut self.nodes, Vec::new())` —
return the whole buffer and leave the recorder with an empty buffer. -/
def Recorder.drain (r : Recorder) : List Record × Recorder :=
  (r.nodes, { r with nodes := [] })

/-- One `record` call's arguments, used to talk about call sequences. -/
structure Call where
  hash : H256
  data : Bytes
  depth : Nat
  deriving DecidableEq, Repr

/-- The `Record` a call would produce if it passes the depth filter. -/
def Call.toRecord (c : Call) : Record :=
  { depth := c.depth, data := c.data, hash := c.hash }

/-- Run a sequence of `record` calls left to right. -/
def Recorder.recordAll (r : Recorder) (cs : List Call) : Recorder :=
  cs.foldl (fun s c => s.record c.hash c.data c.depth) r

/-- An operation on a recorder: either a `record` call or a `drain`
(whose returned list is discarded when we only track the state). -/
inductive Op where
  | visit (hash : H256) (data : Bytes) (depth : Nat)
  | drain
  deriving DecidableEq, Repr

/-- Apply one operation to the recorder state. -/
def Recorder.step (r : Recorder) : Op → Recorder
  | Op.visit h d depth => r.record h d depth
  | Op.drain => (r.drain).2

/-- Run a sequence of operations left to right. -/
def Recorder.run (r : Recorder) (ops : List Op) : Recorder :=
  ops.foldl Recorder.step r

/-! ### Helper lemmas -/

theorem Recorder.record_min (r : Recorder) (h : H256) (d : Bytes) (depth : Nat) :
    (r.record h d depth).min_depth = r.min_depth := by
  unfold Recorder.record
  split <;> rfl

theorem Recorder.record_nodes (r : Recorder) (h : H256) (d : Bytes) (depth : Nat) :
    (r.record h d depth).nodes =
      r.nodes ++ (if r.min_depth ≤ depth then [{ depth := depth, data := d, hash := h }] else []) := by
  unfold Recorder.record
  split <;> simp

theorem Recorder.recordAll_min (cs : List Call) : ∀ r : Recorder,
    (r.recordAll cs).min_depth = r.min_depth := by
  induction cs with
  | nil => intro r; rfl
  | cons c cs ih =>
    intro r
    show ((r.record c.hash c.data c.depth).recordAll cs).min_depth = _
    rw [ih, Recorder.record_min]

theorem Recorder.recordAll_nodes (cs : List Call) : ∀ r : Recorder,
    (r.recordAll cs).nodes =
      r.nodes ++ (cs.filter (fun c => decide (r.min_depth ≤ c.depth))).map Call.toRecord := by
  induction cs with
  | nil => intro r; simp [Recorder.recordAll]
  | cons c cs ih =>
    intro r
    show ((r.record c.hash c.data c.depth).recordAll cs).nodes = _
    rw [ih, Recorder.record_min, Recorder.record_nodes, List.filter_cons]
    by_cases hc : r.min_depth ≤ c.depth
    · simp [hc, Call.toRecord]
    · simp [hc]

theorem Recorder.step_min (r : Recorder) (o : Op) :
    (r.step o).min_depth = r.min_depth := by
  cases o with
  | visit h d depth => exact r.record_min h d depth
  | drain => rfl

theorem Recorder.run_min (ops : List Op) : ∀ r : Recorder,
    (r.run ops).min_depth = r.min_depth := by
  induction ops with
  | nil => intro r; rfl
  | cons o ops ih =>
    intro r
    show ((r.step o).run ops).min_depth = _
    rw [ih, Recorder.step_min]

/-! ### Claims -/

/-- C1: for every recorder constructed with `with_depth m` and every
sequence of `record` calls followed by one `drain`, the returned sequence
is exactly the subsequence of the calls whose depth is `>= m`, in call
order, each returned `Record` carrying the depth, data and hash exactly
as supplied. -/
theorem drain_returns_filtered_subsequence (m : Nat) (cs : List Call) :
    (((Recorder.with_depth m).recordAll cs).drain).1 =
      (cs.filter (fun c => decide (m ≤ c.depth))).map Call.toRecord := by
  show ((Recorder.with_depth m).recordAll cs).nodes = _
  rw [Recorder.recordAll_nodes]
  rfl

/-- C2: frame effect of a single `record(hash, data, depth)` call: if
`depth >= min_depth`, exactly one new `Record` with those fields is
appended at the end and everything else (previous buffer entries and
`min_depth`) is unchanged; if `depth < min_depth`, the whole recorder
state is unchanged. -/
theorem record_frame_effect (r : Recorder) (hs : H256) (bs : Bytes) (depth : Nat) :
    (r.min_depth ≤ depth →
      r.record hs bs depth =
        { nodes := r.nodes ++ [{ depth := depth, data := bs, hash := hs }],
          min_depth := r.min_depth }) ∧
    (depth < r.min_depth → r.record hs bs depth = r) := by
  constructor
  · intro hle
    unfold Recorder.record
    rw [if_pos hle]
  · intro hlt
    unfold Recorder.record
    rw [if_neg (by omega)]

/-- Witness for C2: both branches at concrete inputs. -/
theorem record_frame_effect_witness :
    Recorder.new.record 7 [1, 2] 3 =
      { nodes := [{ depth := 3, data := [1, 2], hash := 7 }], min_depth := 0 } ∧
    (Recorder.with_depth 5).record 7 [1, 2] 3 = Recorder.with_depth 5 :=
  ⟨(record_frame_effect Recorder.new 7 [1, 2] 3).1 (by decide),
   (record_frame_effect (Recorder.with_depth 5) 7 [1, 2] 3).2 (by decide)⟩

/-- C3: the depth filter is the test `depth >= min_depth`, so a call at
depth exactly `min_depth` is recorded, and whether a call is recorded
depends only on that call's depth and the fixed `min_depth`: two
recorders with the same `min_depth` (whatever their buffers, i.e.
whatever earlier calls they saw) make the same decision. -/
theorem depth_filter_strict (r₁ r₂ : Recorder) (hs : H256) (bs : Bytes) (depth : Nat)
    (hmin : r₁.min_depth = r₂.min_depth) :
    ((r₁.record hs bs depth).nodes.length = r₁.nodes.length + 1 ↔ r₁.min_depth ≤ depth) ∧
    ((r₁.record hs bs depth).nodes.length = r₁.nodes.length + 1 ↔
      (r₂.record hs bs depth).nodes.length = r₂.nodes.length + 1) ∧
    (r₁.record hs bs r₁.min_depth).nodes.length = r₁.nodes.length + 1 := by
  have key : ∀ r : Recorder, (r.record hs bs depth).nodes.length =
      r.nodes.length + (if r.min_depth ≤ depth then 1 else 0) := by
    intro r
    rw [Recorder.record_nodes, List.length_append]
    split <;> simp
  refine ⟨?_, ?_, ?_⟩
  · rw [key r₁]
    split <;> rename_i hc <;> simp <;> omega
  · rw [key r₁, key r₂, hmin]
    split <;> simp
  · rw [Recorder.record_nodes, List.length_append, if_pos (Nat.le_refl _)]
    rfl

/-- Witness for C3: the theorem at two concrete recorders with equal
`min_depth`. -/
theorem depth_filter_strict_witness :
    (((Recorder.with_depth 2).record 9 [4] 3).nodes.length =
        (Recorder.with_depth 2).nodes.length + 1 ↔ (Recorder.with_depth 2).min_depth ≤ 3) ∧
    (((Recorder.with_depth 2).record 9 [4] 3).nodes.length =
        (Recorder.with_depth 2).nodes.length + 1 ↔
      (((Recorder.with_depth 2).record 8 [5] 6).record 9 [4] 3).nodes.length =
        ((Recorder.with_depth 2).record 8 [5] 6).nodes.length + 1) ∧
    ((Recorder.with_depth 2).record 9 [4] (Recorder.with_depth 2).min_depth).nodes.length =
      (Recorder.with_depth 2).nodes.length + 1 :=
  depth_filter_strict (Recorder.with_depth 2) ((Recorder.with_depth 2).record 8 [5] 6)
    9 [4] 3 (by decide)

/-- C4: `new()` is `with_depth(0)` and behaviourally identical to it
under every operation sequence, and a recorder built by `new()` records
every visited node: after any operation sequence, every `record` call
appends. -/
theorem new_refines_with_depth_zero :
    Recorder.new = Recorder.with_depth 0 ∧
    (∀ ops : List Op, Recorder.new.run ops = (Recorder.with_depth 0).run ops) ∧
    (∀ ops : List Op, ∀ hs : H256, ∀ bs : Bytes, ∀ depth : Nat,
      ((Recorder.new.run ops).record hs bs depth).nodes =
        (Recorder.new.run ops).nodes ++ [{ depth := depth, data := bs, hash := hs }]) := by
  refine ⟨rfl, fun ops => rfl, fun ops hs bs depth => ?_⟩
  rw [Recorder.record_nodes]
  have hm : (Recorder.new.run ops).min_depth = 0 := Recorder.run_min ops Recorder.new
  rw [hm, if_pos (Nat.zero_le depth)]

/-- C5: `drain()` returns the entire current buffer and resets the
internal buffer to empty (keeping `min_depth`); an immediate second
`drain()` returns the empty sequence. -/
theorem drain_resets (r : Recorder) :
    (r.drain).1 = r.nodes ∧
    (r.drain).2 = { nodes := [], min_depth := r.min_depth } ∧
    (((r.drain).2).drain).1 = [] :=
  ⟨rfl, rfl, rfl⟩

/-- C6: `min_depth` is fixed at construction: after any sequence of
`record` and `drain` operations it still equals the value given to
`with_depth` (and 0 for `new()`). -/
theorem min_depth_fixed (m : Nat) (ops : List Op) :
    ((Recorder.with_depth m).run ops).min_depth = m ∧
    (Recorder.new.run ops).min_depth = 0 :=
  ⟨Recorder.run_min ops (Recorder.with_depth m), Recorder.run_min ops Recorder.new⟩

/-- C7: recording does not deduplicate: two successive `record` calls
with identical arguments, at a depth passing the filter, append two
separate equal records, and the subsequent `drain` contains both. -/
theorem record_no_dedup (r : Recorder) (hs : H256) (bs : Bytes) (depth : Nat)
    (hd : r.min_depth ≤ depth) :
    (((r.record hs bs depth).record hs bs depth).drain).1 =
      r.nodes ++ [{ depth := depth, data := bs, hash := hs },
                  { depth := depth, data := bs, hash := hs }] := by
  show ((r.record hs bs depth).record hs bs depth).nodes = _
  rw [Recorder.record_nodes, Recorder.record_min, Recorder.record_nodes,
    if_pos hd]
  simp

/-- Witness for C7: duplicate recording at a concrete input. -/
theorem record_no_dedup_witness :
    (((Recorder.with_depth 1).record 6 [9] 2).record 6 [9] 2).drain.1 =
      [] ++ [{ depth := 2, data := [9], hash := 6 },
             { depth := 2, data := [9], hash := 6 }] :=
  record_no_dedup (Recorder.with_depth 1) 6 [9] 2 (by decide)

/-- C8: record/drain cycles are independent: after recording a first
batch and draining, then recording a second batch and draining, the
first drain is exactly the depth-filtered first batch and the second
drain is exactly the depth-filtered second batch. -/
theorem drain_cycles_independent (m : Nat) (cs₁ cs₂ : List Call) :
    (((Recorder.with_depth m).recordAll cs₁).drain).1 =
      (cs₁.filter (fun c => decide (m ≤ c.depth))).map Call.toRecord ∧
    (((((Recorder.with_depth m).recordAll cs₁).drain).2.recordAll cs₂).drain).1 =
      (cs₂.filter (fun c => decide (m ≤ c.depth))).map Call.toRecord := by
  constructor
  · show ((Recorder.with_depth m).recordAll cs₁).nodes = _
    rw [Recorder.recordAll_nodes]
    rfl
  · show (((((Recorder.with_depth m).recordAll cs₁).drain).2).recordAll cs₂).nodes = _
    rw [Recorder.recordAll_nodes]
    have h2 : ((((Recorder.with_depth m).recordAll cs₁).drain).2).min_depth = m := by
      show (((Recorder.with_depth m).recordAll cs₁)).min_depth = m
      rw [Recorder.recordAll_min]
      rfl
    rw [h2]
    rfl

/-- C9: `record` and `drain` never fail: they are total functions whose
result is given by an explicit formula for all arguments, in particular
for a `hash` that is not the hash of `data` under any hash function — a
mismatch changes neither which `Record` is stored nor whether it is
stored (the source's `debug_assert_eq` is absent from production
builds). -/
theorem record_total_on_mismatch (cryptHash : Bytes → H256) (r : Recorder)
    (hs : H256) (bs : Bytes) (depth : Nat) (hmis : cryptHash bs ≠ hs) :
    r.record hs bs depth =
      (if r.min_depth ≤ depth then
        { nodes := r.nodes ++ [{ depth := depth, data := bs, hash := hs }],
          min_depth := r.min_depth }
      else r) ∧
    r.drain = (r.nodes, { nodes := [], min_depth := r.min_depth }) := by
  constructor
  · unfold Recorder.record
    split <;> rfl
  · rfl

/-- Witness for C9: a concrete mismatching hash is stored verbatim. -/
theorem record_total_on_mismatch_witness :
    Recorder.new.record 1 [] 0 =
      (if Recorder.new.min_depth ≤ 0 then
        { nodes := Recorder.new.nodes ++ [{ depth := 0, data := [], hash := 1 }],
          min_depth := Recorder.new.min_depth }
      else Recorder.new) ∧
    Recorder.new.drain = (Recorder.new.nodes, { nodes := [], min_depth := Recorder.new.min_depth }) :=
  record_total_on_mismatch (fun _ => 0) Recorder.new 1 [] 0 (by decide)

/-- C10: `Recorder::default()` is `Recorder::new()`: same `min_depth`
(0), same empty buffer, and identical behaviour under every subsequent
operation sequence. -/
theorem default_is_new :
    Recorder.default = Recorder.new ∧
    Recorder.default.min_depth = 0 ∧
    Recorder.default.nodes = [] ∧
    ∀ ops : List Op, Recorder.default.run ops = Recorder.new.run ops :=
  ⟨rfl, rfl, rfl, fun ops => rfl⟩
